import Mathlib

/-!
Verification development for the pumpfun-sniper trading bot.

The Rust sources are shallowly embedded here:
* `f64` values are modelled as exact rationals (`ℚ`); none of the settled
  properties depends on rounding.  Where the code divides by a quantity that
  can be zero, the statements below avoid asserting the value of the
  quotient (IEEE yields a non-finite value, `ℚ` yields `0`); they only speak
  about which fields are written and which branches are taken.
* `SystemTime` / `Duration` values are modelled as whole seconds (`Nat`);
  `SystemTime::duration_since` truncates at zero exactly like `Nat`
  subtraction.
* `HashSet<String>` is modelled as `Finset String`; `HashMap<String, _>` as
  an association list whose keys stay pairwise distinct.
* network calls are modelled as explicit oracle arguments carrying the
  outcome the upstream would have produced.
-/

namespace Sniper

/-- `TokenPosition` from `pool_scanner.rs`.  The `trade_result : Option<TradeResult>`
field is kept as the Boolean `simulated` (`trade_result.is_none()`), which is the
only distinction the rest of the code draws from it. -/
structure TokenPosition where
  token_address : String
  purchase_time : Nat
  sol_amount : ℚ
  estimated_tokens : Nat
  entry_price : ℚ
  simulated : Bool
  deriving Repr, DecidableEq

/-- `NewPool` from `pool_scanner.rs` (the fields the scanner logic reads). -/
structure NewPool where
  token_address : String
  pool_address : String
  liquidity_sol : ℚ
  deriving Repr, DecidableEq

/-- The position store `active_positions : HashMap<String, TokenPosition>`,
modelled as an association list. -/
abbrev PositionMap := List (String × TokenPosition)

/-- `HashMap::insert`: the entry for the key is replaced (the map never holds
two entries for one key), and the insertion always succeeds. -/
def mapInsert (m : PositionMap) (k : String) (v : TokenPosition) : PositionMap :=
  (k, v) :: m.filter (fun kv => !(kv.1 == k))

/-- `HashMap::remove`. -/
def mapRemove (m : PositionMap) (k : String) : PositionMap :=
  m.filter (fun kv => !(kv.1 == k))

/-- Keys currently present in the store. -/
def mapKeys (m : PositionMap) : List String := m.map Prod.fst

/-! ### Pool discovery and deduplication (`scan_for_new_pools`) -/

/-- `scan_for_new_pools` (pool_scanner.rs, lines 250–277): the freshly fetched
pools are filtered against `processed_pools`, and the surviving pools' ids are
then inserted into `processed_pools`.  Returns the filtered batch and the new
seen set.  Nothing in the program ever removes an element from the seen set. -/
def scan_for_new_pools (seen : Finset String) (fetched : List NewPool) :
    List NewPool × Finset String :=
  let filtered := fetched.filter (fun pool => !(decide (pool.pool_address ∈ seen)))
  (filtered, filtered.foldl (fun s pool => insert pool.pool_address s) seen)

/-- Iterated polling: each element of `fetches` is what the upstream sources
return on one cycle; the seen set threads through the cycles. -/
def runPolls (seen : Finset String) : List (List NewPool) → List (List NewPool) × Finset String
  | [] => ([], seen)
  | f :: fs =>
      let step := scan_for_new_pools seen f
      let rest := runPolls step.2 fs
      (step.1 :: rest.1, rest.2)

/-! ### Buy execution (`execute_purchase`) -/

/-- Outcome of `jupiter_trader.buy_token`. -/
inductive TradeOutcome where
  | success (tokens_received : Nat)
  | failure (msg : String)
  deriving Repr, DecidableEq

/-- Whether the first character list starts the second. -/
def leadsWith : List Char → List Char → Bool
  | [], _ => true
  | _ :: _, [] => false
  | a :: as, b :: bs => a == b && leadsWith as bs

/-- Whether `pat` occurs contiguously inside the character list. -/
def containsChars (pat : List Char) : List Char → Bool
  | [] => leadsWith pat []
  | c :: rest => leadsWith pat (c :: rest) || containsChars pat rest

/-- Rust `String::contains` (contiguous substring test). -/
def containsSub (s pat : String) : Bool := containsChars pat.data s.data

/-- The error test in `execute_purchase` (pool_scanner.rs, line 742):
`error_message.contains("Jupiter") || error_message.contains("API") ||
error_message.contains("dns error")`. -/
def isJupiterApiError (msg : String) : Bool :=
  containsSub msg "Jupiter" || containsSub msg "API" || containsSub msg "dns error"

/-- The simulated position built by the fallback branch of `execute_purchase`
(pool_scanner.rs, lines 748–758): `estimated_tokens = (sol_amount * 1_000_000.0)
as u64` (the cast truncates, saturating at 0), `trade_result = None`. -/
def simulatedPosition (token_address : String) (sol_amount : ℚ) (now : Nat) : TokenPosition :=
  let estimated_tokens := (sol_amount * 1000000).floor.toNat
  { token_address := token_address
    purchase_time := now
    sol_amount := sol_amount
    estimated_tokens := estimated_tokens
    entry_price := sol_amount / (estimated_tokens : ℚ)
    simulated := true }

/-- The real position built on a successful buy (pool_scanner.rs, lines 702–709). -/
def purchasedPosition (token_address : String) (sol_amount : ℚ) (now : Nat)
    (tokens_received : Nat) : TokenPosition :=
  { token_address := token_address
    purchase_time := now
    sol_amount := sol_amount
    estimated_tokens := tokens_received
    entry_price := sol_amount / (tokens_received : ℚ)
    simulated := false }

/-- What `execute_purchase` did to the position store. -/
structure PurchaseResult where
  positions : PositionMap
  inserted : Option TokenPosition
  ok : Bool
  deriving Repr, DecidableEq

/-- `execute_purchase` (pool_scanner.rs, lines 689–787).  On a successful buy
the real position is inserted.  On a failed buy whose error message mentions
Jupiter / API / dns, the code falls back to simulation: it inserts a simulated
position and reports success (`return Ok(())`).  Only other failures leave the
store untouched and propagate the error. -/
def execute_purchase (positions : PositionMap) (token_address : String)
    (sol_amount : ℚ) (now : Nat) (outcome : TradeOutcome) : PurchaseResult :=
  match outcome with
  | .success tokens_received =>
      let position := purchasedPosition token_address sol_amount now tokens_received
      ⟨mapInsert positions token_address position, some position, true⟩
  | .failure msg =>
      if isJupiterApiError msg then
        let position := simulatedPosition token_address sol_amount now
        ⟨mapInsert positions token_address position, some position, true⟩
      else
        ⟨positions, none, false⟩

/-! ### Timeout auto-sell (`monitor_position_timeouts`, `execute_auto_sell`) -/

/-- Outcome of `jupiter_trader.sell_token`. -/
inductive SellOutcome where
  | success (sol_received : ℚ)
  | failure (msg : String)
  deriving Repr, DecidableEq

def SellOutcome.isSuccess : SellOutcome → Bool
  | .success _ => true
  | .failure _ => false

/-- The hardcoded auto-sell timeout (pool_scanner.rs, line 792):
`Duration::from_secs(30 * 60)`.  The configured `max_hold_time_hours` is not
consulted anywhere in the monitoring path. -/
def timeout_duration : Nat := 30 * 60

/-- Selection phase of `monitor_position_timeouts` (lines 795–802): every
position whose elapsed holding time has reached 30 minutes is scheduled for
sale.  `duration_since` fails when `purchase_time` is in the future, in which
case the position is silently kept. -/
def positionsToSell (positions : PositionMap) (now : Nat) : List String :=
  (positions.filter (fun kv =>
    decide (kv.2.purchase_time ≤ now) &&
    decide (timeout_duration ≤ now - kv.2.purchase_time))).map Prod.fst

/-- The state after a `monitor_position_timeouts` cycle: the surviving position
store, the keys still held by the profit monitor, the sell orders issued
(token, token amount), and the error the cycle was aborted with, if any. -/
structure TimeoutResult where
  positions : PositionMap
  monitored : List String
  sells : List (String × Nat)
  error : Option String
  deriving Repr, DecidableEq

/-- Execution phase of `monitor_position_timeouts` (lines 804–809) combined
with `execute_auto_sell` (lines 815–861): each scheduled position is first
*removed* from `active_positions`, then its full `estimated_tokens` amount is
sold via Jupiter.  Success additionally removes the position from the profit
monitor; a sell failure propagates with `?`, aborting the remaining scheduled
positions, with the removed position never restored. -/
def sellLoop (sell : String → Nat → SellOutcome) :
    List String → PositionMap → List String → List (String × Nat) → TimeoutResult
  | [], ps, ms, orders => ⟨ps, ms, orders, none⟩
  | t :: rest, ps, ms, orders =>
      match ps.lookup t with
      | none => sellLoop sell rest ps ms orders
      | some position =>
          let ps' := mapRemove ps t
          match sell t position.estimated_tokens with
          | .success _ =>
              sellLoop sell rest ps' (ms.filter (fun u => !(u == t)))
                (orders ++ [(t, position.estimated_tokens)])
          | .failure msg => ⟨ps', ms, orders ++ [(t, position.estimated_tokens)], some msg⟩

/-- `monitor_position_timeouts` (pool_scanner.rs, lines 790–812). -/
def monitor_position_timeouts (positions : PositionMap) (monitored : List String)
    (now : Nat) (sell : String → Nat → SellOutcome) : TimeoutResult :=
  sellLoop sell (positionsToSell positions now) positions monitored []

/-- `monitor_existing_positions` (pool_scanner.rs, lines 878–882).  The body is
`Ok(())` under the comment "Take profit monitoring disabled in simplified
version": the store is untouched and no sell order is ever issued.  The second
component is the list of sell orders issued. -/
def monitor_existing_positions (positions : PositionMap) : PositionMap × List (String × Nat) :=
  (positions, [])

/-- The states the position store can reach: empty at construction
(`PoolScanner::new`), then mutated only by `execute_purchase` insertions and
`monitor_position_timeouts` removals. -/
inductive ReachableStore : PositionMap → Prop where
  | init : ReachableStore []
  | purchase (ps : PositionMap) (token : String) (sol : ℚ) (now : Nat)
      (outcome : TradeOutcome) (h : ReachableStore ps) :
      ReachableStore (execute_purchase ps token sol now outcome).positions
  | timeout (ps : PositionMap) (ms : List String) (now : Nat)
      (sell : String → Nat → SellOutcome) (h : ReachableStore ps) :
      ReachableStore (monitor_position_timeouts ps ms now sell).positions

/-! ### Settings (`settings.rs`, `TradingSettings`) -/

/-- `TradingSettings` from `settings.rs`, lines 141–158. -/
structure TradingSettings where
  position_size_sol : ℚ
  max_positions : Nat
  min_liquidity_sol : ℚ
  max_slippage_percent : ℚ
  enable_auto_trading : Bool
  stop_loss_percent : ℚ
  trailing_stop_enabled : Bool
  trailing_stop_percent : ℚ
  profit_threshold_percent : ℚ
  sell_percentage : ℚ
  max_hold_time_hours : Nat
  deriving Repr, DecidableEq

/-- The `from_env` defaults for `TradingSettings` (settings.rs, lines 428–441);
in particular `max_hold_time_hours = 24`. -/
def defaultTradingSettings : TradingSettings :=
  { position_size_sol := 1
    max_positions := 5
    min_liquidity_sol := 10
    max_slippage_percent := 5
    enable_auto_trading := false
    stop_loss_percent := 50
    trailing_stop_enabled := true
    trailing_stop_percent := 30
    profit_threshold_percent := 50
    sell_percentage := 75
    max_hold_time_hours := 24 }

/-! ### Profit accounting (`profit_monitor.rs`) -/

/-- `ProfitData` from `profit_monitor.rs`, lines 12–28. -/
structure ProfitData where
  token_address : String
  symbol : String
  current_price_usd : ℚ
  entry_price_usd : ℚ
  current_value_sol : ℚ
  entry_value_sol : ℚ
  pnl_sol : ℚ
  pnl_percentage : ℚ
  pnl_usd : ℚ
  tokens_held : Nat
  last_updated : Nat
  highest_value : ℚ
  lowest_value : ℚ
  time_held : Nat
  deriving Repr, DecidableEq

/-- `(tokens_held as f64 * current_price_usd) / sol_price`, the valuation
formula shared by `add_position` (line 185) and `update_all_prices` (line 226). -/
def observedValue (tokens : Nat) (current_price_usd sol_price : ℚ) : ℚ :=
  (tokens : ℚ) * current_price_usd / sol_price

/-- The `ProfitData` record built by `add_position` (profit_monitor.rs, lines
184–202).  `current_price_usd` and `sol_price` stand for the values the price
oracles produced (or their fallbacks).  Note both watermarks are seeded with
`current_value_sol` *and* `position.sol_amount`:
`highest_value = current_value_sol.max(position.sol_amount)` and symmetrically
for `lowest_value`. -/
def add_position_data (position : TokenPosition) (symbol : String)
    (current_price_usd sol_price : ℚ) (now : Nat) : ProfitData :=
  let current_value_sol := observedValue position.estimated_tokens current_price_usd sol_price
  { token_address := position.token_address
    symbol := symbol
    current_price_usd := current_price_usd
    entry_price_usd := position.entry_price * sol_price
    current_value_sol := current_value_sol
    entry_value_sol := position.sol_amount
    pnl_sol := current_value_sol - position.sol_amount
    pnl_percentage := (current_value_sol - position.sol_amount) / position.sol_amount * 100
    pnl_usd := (current_value_sol - position.sol_amount) * sol_price
    tokens_held := position.estimated_tokens
    last_updated := now
    highest_value := max current_value_sol position.sol_amount
    lowest_value := min current_value_sol position.sol_amount
    time_held := now - position.purchase_time }

/-- `add_position` (profit_monitor.rs, lines 153–206): a no-op when the token
is already monitored, otherwise the freshly built record is inserted. -/
def add_position (profit_data : List (String × ProfitData)) (position : TokenPosition)
    (symbol : String) (current_price_usd sol_price : ℚ) (now : Nat) :
    List (String × ProfitData) :=
  if (profit_data.lookup position.token_address).isSome then profit_data
  else (position.token_address,
        add_position_data position symbol current_price_usd sol_price now) :: profit_data

/-- The per-position mutation of `update_all_prices` (profit_monitor.rs, lines
225–239).  Every field is recomputed unconditionally — there is no guard on
`entry_value_sol = 0` (the `pnl_percentage` division) or on
`highest_value = 0`; the formulas are applied as written. -/
def updateProfitData (sol_price current_price_usd : ℚ) (pd : ProfitData) (now : Nat) :
    ProfitData :=
  let current_value_sol := observedValue pd.tokens_held current_price_usd sol_price
  { pd with
    current_price_usd := current_price_usd
    current_value_sol := current_value_sol
    pnl_sol := current_value_sol - pd.entry_value_sol
    pnl_percentage := (current_value_sol - pd.entry_value_sol) / pd.entry_value_sol * 100
    pnl_usd := (current_value_sol - pd.entry_value_sol) * sol_price
    last_updated := now
    highest_value := max pd.highest_value current_value_sol
    lowest_value := min pd.lowest_value current_value_sol }

/-- `update_all_prices` (profit_monitor.rs, lines 214–248): one shared SOL
price, then an independent per-token price fetch; a token whose fetch fails is
left unchanged (logged), all others are updated. -/
def update_all_prices (sol_price : ℚ) (fetch : String → Option ℚ) (now : Nat)
    (profit_data : List (String × ProfitData)) : List (String × ProfitData) :=
  profit_data.map (fun kv =>
    match fetch kv.1 with
    | some current_price_usd => (kv.1, updateProfitData sol_price current_price_usd kv.2 now)
    | none => kv)

/-- A sequence of successful valuation refreshes applied to one position's
`ProfitData`; each element carries `(sol_price, current_price_usd, now)`. -/
def refreshes (pd : ProfitData) (us : List (ℚ × ℚ × Nat)) : ProfitData :=
  us.foldl (fun pd u => updateProfitData u.1 u.2.1 pd u.2.2) pd

/-! ### SOL base-currency price (`get_sol_price`) -/

/-- Outcome of one upstream price API call, as the code distinguishes them:
a parsed price, an HTTP-level reply without a usable price, or a transport
error. -/
inductive PriceApiResult where
  | price (p : ℚ)
  | badResponse
  | sendError
  deriving Repr, DecidableEq

/-- The cached SOL price state: `sol_price_usd` (0.0 at construction) and
whether the 5-minute cache TTL is still running. -/
structure SolPriceCache where
  sol_price_usd : ℚ
  cache_fresh : Bool
  deriving Repr, DecidableEq

/-- The tail of `get_sol_price` (profit_monitor.rs, lines 332–338): prefer the
cached positive price, otherwise the hardcoded `150.0`. -/
def solPriceFallback (st : SolPriceCache) : Except String ℚ × SolPriceCache :=
  if 0 < st.sol_price_usd then (.ok st.sol_price_usd, st) else (.ok 150, st)

/-- `get_sol_price` (profit_monitor.rs, lines 300–339).  CoinGecko is tried
first; the Jupiter price API is consulted only when the CoinGecko *request*
errors (a malformed CoinGecko reply falls straight through to the cache /
constant fallback).  No branch constructs an `Err`. -/
def get_sol_price (st : SolPriceCache) (coingecko jupiter : PriceApiResult) :
    Except String ℚ × SolPriceCache :=
  if st.cache_fresh ∧ 0 < st.sol_price_usd then (.ok st.sol_price_usd, st)
  else
    match coingecko with
    | .price p => (.ok p, ⟨p, true⟩)
    | .badResponse => solPriceFallback st
    | .sendError =>
        match jupiter with
        | .price p => (.ok p, ⟨p, true⟩)
        | .badResponse => solPriceFallback st
        | .sendError => solPriceFallback st

/-- One valuation refresh cycle as driven by `update_all_prices` line 215:
`let sol_price = self.get_sol_price().await?;` — the `?` would abort the cycle
on an error, but no error is ever produced, so the refresh always proceeds
with whatever price (live, cached, or the constant 150) was obtained. -/
def refresh_cycle (st : SolPriceCache) (coingecko jupiter : PriceApiResult)
    (fetch : String → Option ℚ) (now : Nat) (profit_data : List (String × ProfitData)) :
    List (String × ProfitData) × SolPriceCache :=
  match get_sol_price st coingecko jupiter with
  | (.ok sol_price, st') => (update_all_prices sol_price fetch now profit_data, st')
  | (.error _, st') => (profit_data, st')

/-! ### Alerts (`check_profit_alerts`, `send_profit_alert`) -/

/-- `AlertType` from `profit_monitor.rs`, lines 39–47. -/
inductive AlertType where
  | ProfitTarget (pct : ℚ)
  | StopLoss (pct : ℚ)
  | TrailingStop (pct : ℚ)
  | TimeAlert (held : Nat)
  | VolumeSpike
  | LiquidityChange
  deriving Repr, DecidableEq

/-- The alerts one position contributes in a single `check_profit_alerts` pass
(profit_monitor.rs, lines 346–367).  Each condition is re-tested from scratch;
no armed/disarmed flag exists anywhere in the state.  NOTE: the surrounding
function `check_profit_alerts` has no call site in the program (see below). -/
def checkAlertsFor (cfg : TradingSettings) (kv : String × ProfitData) :
    List (String × AlertType) :=
  let pd := kv.2
  (if cfg.profit_threshold_percent ≤ pd.pnl_percentage
    then [(kv.1, AlertType.ProfitTarget pd.pnl_percentage)] else [])
  ++ (if pd.pnl_percentage ≤ -cfg.stop_loss_percent
    then [(kv.1, AlertType.StopLoss pd.pnl_percentage)] else [])
  ++ (let decline := (pd.highest_value - pd.current_value_sol) / pd.highest_value * 100
      if cfg.trailing_stop_percent ≤ decline
        then [(kv.1, AlertType.TrailingStop decline)] else [])
  ++ (if pd.time_held % 1800 == 0 && pd.time_held > 0
    then [(kv.1, AlertType.TimeAlert pd.time_held)] else [])

/-- `check_profit_alerts` (profit_monitor.rs, lines 342–375): collect, then
send every collected alert.  This function is DEAD CODE: nothing in the
program calls it, and `send_profit_alert` — the only writer of
`alert_history` — is reachable only from it. -/
def check_profit_alerts (cfg : TradingSettings)
    (profit_data : List (String × ProfitData)) : List (String × AlertType) :=
  profit_data.flatMap (checkAlertsFor cfg)

/-- The `ProfitMonitor` state an evaluation cycle touches, scoped to the
fields the alert claims concern: `profit_data`, `alert_history` and the three
cadence timestamps.  Omitted (none of them feeds `alert_history` or
`profit_data`): `price_cache` and the SOL-price cache (their outcomes enter as
oracles, as in `update_all_prices`), and `portfolio_history`, which only
`generate_portfolio_summary` appends a derived summary to. -/
structure MonitorCycleState where
  profit_data : List (String × ProfitData)
  alert_history : List (String × AlertType)
  last_price_update : Nat
  last_telegram_update : Nat
  last_portfolio_summary : Nat

/-- First block of `update_monitoring_cycle` (profit_monitor.rs, lines
125–131): refresh all prices when more than 30 s have passed. -/
def price_refresh_step (st : MonitorCycleState) (sol_price : ℚ)
    (fetch : String → Option ℚ) (now : Nat) : MonitorCycleState :=
  if 30 < now - st.last_price_update then
    { st with
      profit_data := update_all_prices sol_price fetch now st.profit_data
      last_price_update := now }
  else st

/-- Second block (lines 133–139): `send_telegram_update` every 5 minutes — it
only reads the state (and pushes a message to the notifier). -/
def telegram_update_step (st : MonitorCycleState) (now : Nat) : MonitorCycleState :=
  if 300 < now - st.last_telegram_update then { st with last_telegram_update := now }
  else st

/-- Third block (lines 141–147): `generate_portfolio_summary` every 15
minutes — it appends a derived summary to `portfolio_history` and touches
neither `profit_data` nor `alert_history`. -/
def portfolio_summary_step (st : MonitorCycleState) (now : Nat) : MonitorCycleState :=
  if 900 < now - st.last_portfolio_summary then { st with last_portfolio_summary := now }
  else st

/-- `update_monitoring_cycle` (profit_monitor.rs, lines 122–150), the
program's actual per-cycle evaluation: gated price refresh, telegram summary,
portfolio summary.  It never invokes `check_profit_alerts` or
`send_profit_alert`, so `alert_history` is never written. -/
def update_monitoring_cycle (st : MonitorCycleState) (sol_price : ℚ)
    (fetch : String → Option ℚ) (now : Nat) : MonitorCycleState :=
  portfolio_summary_step (telegram_update_step (price_refresh_step st sol_price fetch now) now) now

/-! ## Basic lemmas about the store -/

theorem lookup_mapInsert (m : PositionMap) (k : String) (v : TokenPosition) :
    (mapInsert m k v).lookup k = some v := by
  simp [mapInsert, List.lookup]

theorem mapKeys_nodup_insert (m : PositionMap) (k : String) (v : TokenPosition)
    (h : (mapKeys m).Nodup) : (mapKeys (mapInsert m k v)).Nodup := by
  unfold mapKeys mapInsert
  refine List.nodup_cons.2 ⟨?_, ?_⟩
  · intro hmem
    rcases List.mem_map.1 hmem with ⟨kv, hkv, hfst⟩
    rcases List.mem_filter.1 hkv with ⟨_, hne⟩
    simp [hfst] at hne
  · exact h.sublist ((List.filter_sublist m).map _)

theorem mapKeys_nodup_remove (m : PositionMap) (k : String)
    (h : (mapKeys m).Nodup) : (mapKeys (mapRemove m k)).Nodup :=
  h.sublist ((List.filter_sublist m).map _)

theorem lookup_mapRemove_self (m : PositionMap) (k : String) :
    (mapRemove m k).lookup k = none := by
  unfold mapRemove
  induction m with
  | nil => rfl
  | cons kv rest ih =>
    by_cases hk : kv.1 = k
    · simpa [List.filter_cons, hk] using ih
    · have h1 : (kv.1 == k) = false := by simp [hk]
      have h2 : (k == kv.1) = false := by simp [Ne.symm hk]
      simp [List.filter_cons, h1, List.lookup, h2, ih]

/-! ## Lemmas about discovery deduplication -/

theorem mem_foldl_insert (l : List NewPool) (s : Finset String) (a : String) :
    a ∈ l.foldl (fun s pool => insert pool.pool_address s) s ↔
      a ∈ s ∨ a ∈ l.map NewPool.pool_address := by
  induction l generalizing s with
  | nil => simp
  | cons p rest ih => simp [ih, Finset.mem_insert]; tauto

theorem scan_seen_subset (seen : Finset String) (fetched : List NewPool) :
    seen ⊆ (scan_for_new_pools seen fetched).2 := by
  intro a ha
  exact (mem_foldl_insert _ _ _).2 (Or.inl ha)

theorem scan_returned_mem_seen (seen : Finset String) (fetched : List NewPool)
    (pool : NewPool) (h : pool ∈ (scan_for_new_pools seen fetched).1) :
    pool.pool_address ∈ (scan_for_new_pools seen fetched).2 := by
  refine (mem_foldl_insert _ _ _).2 (Or.inr ?_)
  exact List.mem_map.2 ⟨pool, h, rfl⟩

theorem scan_filters_seen (seen : Finset String) (fetched : List NewPool)
    (pool : NewPool) (h : pool ∈ (scan_for_new_pools seen fetched).1) :
    pool.pool_address ∉ seen := by
  rcases List.mem_filter.1 h with ⟨-, hdec⟩
  simpa using hdec

theorem runPolls_seen_mono (fetches : List (List NewPool)) (seen : Finset String) :
    seen ⊆ (runPolls seen fetches).2 := by
  induction fetches generalizing seen with
  | nil => exact fun a ha => ha
  | cons f fs ih =>
    intro a ha
    exact ih _ (scan_seen_subset seen f ha)

/-- Any pool returned in any batch of a run was (by the filter) not in the
run's initial seen set. -/
theorem runPolls_batch_not_in_initial_seen (fetches : List (List NewPool)) (seen : Finset String)
    (j : Nat) (bj : List NewPool)
    (hbj : (runPolls seen fetches).1.get? j = some bj)
    (q : NewPool) (hq : q ∈ bj) : q.pool_address ∉ seen := by
  induction fetches generalizing seen j with
  | nil => simp [runPolls] at hbj
  | cons f fs ih =>
    match j with
    | 0 =>
      simp only [runPolls, List.get?, Option.some.injEq] at hbj
      exact scan_filters_seen seen f q (hbj ▸ hq)
    | j + 1 =>
      simp only [runPolls, List.get?] at hbj
      intro hmem
      exact ih _ j hbj (scan_seen_subset seen f hmem)

theorem runPolls_batch_not_reissued (fetches : List (List NewPool)) :
    ∀ (seen : Finset String) (i j : Nat), i < j →
      ∀ bi bj, (runPolls seen fetches).1.get? i = some bi →
        (runPolls seen fetches).1.get? j = some bj →
        ∀ p q, p ∈ bi → q ∈ bj → p.pool_address ≠ q.pool_address := by
  induction fetches with
  | nil =>
    intro seen i j _ bi bj hbi
    simp [runPolls] at hbi
  | cons f fs ih =>
    intro seen i j hij bi bj hbi hbj p q hp hq
    match i, j with
    | 0, j + 1 =>
      simp only [runPolls, List.get?, Option.some.injEq] at hbi hbj
      have hpseen : p.pool_address ∈ (scan_for_new_pools seen f).2 :=
        scan_returned_mem_seen seen f p (hbi ▸ hp)
      intro heq
      -- q appears in a later batch, so its id was not in the (grown) seen set;
      -- but p's id entered the seen set at batch 0 and the set only grows.
      have hqnot : q.pool_address ∉ (scan_for_new_pools seen f).2 :=
        runPolls_batch_not_in_initial_seen fs _ j bj hbj q hq
      exact hqnot (heq ▸ hpseen)
    | i + 1, j + 1 =>
      simp only [runPolls, List.get?] at hbi hbj
      exact ih _ i j (Nat.lt_of_succ_lt_succ hij) bi bj hbi hbj p q hp hq

/-- The id of any pool ever returned by a poll ends up in the final seen set. -/
theorem runPolls_batch_mem_final (fetches : List (List NewPool)) (seen : Finset String)
    (i : Nat) (bi : List NewPool)
    (hbi : (runPolls seen fetches).1.get? i = some bi)
    (p : NewPool) (hp : p ∈ bi) : p.pool_address ∈ (runPolls seen fetches).2 := by
  induction fetches generalizing seen i with
  | nil => simp [runPolls] at hbi
  | cons f fs ih =>
    match i with
    | 0 =>
      simp only [runPolls, List.get?, Option.some.injEq] at hbi ⊢
      exact runPolls_seen_mono fs _ (scan_returned_mem_seen seen f p (hbi ▸ hp))
    | i + 1 =>
      simp only [runPolls, List.get?] at hbi ⊢
      exact ih _ i hbi

/-! ## Lemmas about the timeout sell loop -/

theorem exists_lookup_of_mem_keys (m : PositionMap) (k : String) (h : k ∈ mapKeys m) :
    ∃ v, m.lookup k = some v := by
  induction m with
  | nil => simp [mapKeys] at h
  | cons kv rest ih =>
    by_cases hk : k = kv.1
    · exact ⟨kv.2, by simp [List.lookup, hk]⟩
    · have hmem : k ∈ mapKeys rest := by
        rcases (by simpa [mapKeys] using h : k = kv.1 ∨ k ∈ mapKeys rest) with h1 | h2
        · exact absurd h1 hk
        · exact h2
      rcases ih hmem with ⟨v, hv⟩
      have hne : (k == kv.1) = false := by simp [hk]
      exact ⟨v, by simp [List.lookup, hne, hv]⟩

theorem lookup_mem (m : PositionMap) (k : String) (v : TokenPosition)
    (h : m.lookup k = some v) : (k, v) ∈ m := by
  induction m with
  | nil => simp [List.lookup] at h
  | cons kv rest ih =>
    by_cases hk : k = kv.1
    · simp only [List.lookup, hk, beq_self_eq_true, Option.some.injEq] at h
      subst hk
      exact h ▸ List.mem_cons_self _ _
    · have hne : (k == kv.1) = false := by simp [hk]
      simp only [List.lookup, hne] at h
      exact List.mem_cons_of_mem _ (ih h)

theorem mem_of_mem_mapRemove (m : PositionMap) (u : String) (kv : String × TokenPosition)
    (h : kv ∈ mapRemove m u) : kv ∈ m :=
  (List.mem_filter.1 h).1

theorem mem_keys_mapRemove_of_ne (m : PositionMap) (t u : String) (hne : t ≠ u)
    (ht : t ∈ mapKeys m) : t ∈ mapKeys (mapRemove m u) := by
  rcases List.mem_map.1 ht with ⟨kv, hkv, hfst⟩
  refine List.mem_map.2 ⟨kv, List.mem_filter.2 ⟨hkv, ?_⟩, hfst⟩
  simp [hfst, hne]

theorem positionsToSell_mem_keys (positions : PositionMap) (now : Nat) (t : String)
    (h : t ∈ positionsToSell positions now) : t ∈ mapKeys positions := by
  rcases List.mem_map.1 h with ⟨kv, hkv, hfst⟩
  exact List.mem_map.2 ⟨kv, (List.mem_filter.1 hkv).1, hfst⟩

theorem sellLoop_keys_nodup (sell : String → Nat → SellOutcome) :
    ∀ (ts : List String) (ps : PositionMap) (ms : List String) (orders : List (String × Nat)),
      (mapKeys ps).Nodup → (mapKeys (sellLoop sell ts ps ms orders).positions).Nodup := by
  intro ts
  induction ts with
  | nil => intro ps ms orders h; exact h
  | cons t rest ih =>
    intro ps ms orders h
    cases hlk : ps.lookup t with
    | none => simpa [sellLoop, hlk] using ih ps ms orders h
    | some position =>
      cases hsell : sell t position.estimated_tokens with
      | success r =>
        simpa [sellLoop, hlk, hsell] using
          ih (mapRemove ps t) _ _ (mapKeys_nodup_remove ps t h)
      | failure msg =>
        simpa [sellLoop, hlk, hsell] using mapKeys_nodup_remove ps t h

/-- Once a scheduled position's sell fails, the position (removed just before
the attempt) is gone from the resulting store and the cycle reports the error;
earlier scheduled positions must have sold successfully for the loop to reach
it. -/
theorem sellLoop_fail_removed (sell : String → Nat → SellOutcome) (t : String) (msg : String)
    (hfail : ∀ n, sell t n = .failure msg) :
    ∀ (l₁ l₂ : List String) (ps : PositionMap) (ms : List String) (orders : List (String × Nat)),
      (∀ u ∈ l₁, ∀ n, (sell u n).isSuccess = true) →
      t ∈ mapKeys ps →
      (sellLoop sell (l₁ ++ t :: l₂) ps ms orders).positions.lookup t = none
      ∧ (sellLoop sell (l₁ ++ t :: l₂) ps ms orders).error = some msg := by
  intro l₁
  induction l₁ with
  | nil =>
    intro l₂ ps ms orders _ ht
    rcases exists_lookup_of_mem_keys ps t ht with ⟨v, hv⟩
    simp [sellLoop, hv, hfail v.estimated_tokens, lookup_mapRemove_self]
  | cons u l₁' ih =>
    intro l₂ ps ms orders hok ht
    have hu := hok u (List.mem_cons_self _ _)
    have hne : t ≠ u := by
      intro heq
      have h1 := hu 0
      rw [heq] at hfail
      rw [hfail 0] at h1
      simp [SellOutcome.isSuccess] at h1
    cases hlk : ps.lookup u with
    | none =>
      simpa [sellLoop, hlk] using
        ih l₂ ps ms orders (fun x hx n => hok x (List.mem_cons_of_mem _ hx) n) ht
    | some position =>
      have hs := hu position.estimated_tokens
      cases hsell : sell u position.estimated_tokens with
      | failure m2 =>
        rw [hsell] at hs
        simp [SellOutcome.isSuccess] at hs
      | success r =>
        have ht' : t ∈ mapKeys (mapRemove ps u) := mem_keys_mapRemove_of_ne ps t u hne ht
        simpa [sellLoop, hlk, hsell] using
          ih l₂ (mapRemove ps u) _ _ (fun x hx n => hok x (List.mem_cons_of_mem _ hx) n) ht'

/-- Every sell order the timeout loop issues is for the full
`estimated_tokens` of a position present in the store at cycle start. -/
theorem sellLoop_sells_full (sell : String → Nat → SellOutcome) :
    ∀ (ts : List String) (ps : PositionMap) (ms : List String) (orders : List (String × Nat)),
      ∀ o ∈ (sellLoop sell ts ps ms orders).sells,
        o ∈ orders ∨ ∃ p, (o.1, p) ∈ ps ∧ o.2 = p.estimated_tokens ∧ o.1 ∈ ts := by
  intro ts
  induction ts with
  | nil =>
    intro ps ms orders o ho
    exact Or.inl ho
  | cons t rest ih =>
    intro ps ms orders o ho
    cases hlk : ps.lookup t with
    | none =>
      rw [show sellLoop sell (t :: rest) ps ms orders = sellLoop sell rest ps ms orders by
        simp [sellLoop, hlk]] at ho
      rcases ih ps ms orders o ho with h | ⟨p, hp, he, hm⟩
      · exact Or.inl h
      · exact Or.inr ⟨p, hp, he, List.mem_cons_of_mem _ hm⟩
    | some position =>
      have hmem : (t, position) ∈ ps := lookup_mem ps t position hlk
      cases hsell : sell t position.estimated_tokens with
      | success r =>
        rw [show sellLoop sell (t :: rest) ps ms orders
            = sellLoop sell rest (mapRemove ps t) (ms.filter (fun u => !(u == t)))
                (orders ++ [(t, position.estimated_tokens)]) by
          simp [sellLoop, hlk, hsell]] at ho
        rcases ih _ _ _ o ho with h | ⟨p, hp, he, hm⟩
        · rcases List.mem_append.1 h with h | h
          · exact Or.inl h
          · rcases List.mem_singleton.1 h with rfl
            exact Or.inr ⟨position, hmem, rfl, List.mem_cons_self _ _⟩
        · exact Or.inr ⟨p, mem_of_mem_mapRemove ps t _ hp, he, List.mem_cons_of_mem _ hm⟩
      | failure msg =>
        rw [show (sellLoop sell (t :: rest) ps ms orders).sells
            = orders ++ [(t, position.estimated_tokens)] by
          simp [sellLoop, hlk, hsell]] at ho
        rcases List.mem_append.1 ho with h | h
        · exact Or.inl h
        · rcases List.mem_singleton.1 h with rfl
          exact Or.inr ⟨position, hmem, rfl, List.mem_cons_self _ _⟩

/-! ## Claim C1 — position creation on buy success / failure -/

/-- C1 (counterexample).  The claim says a buy that fails with *any* execution
error creates no Position.  But when the error message mentions Jupiter / API /
dns (here: "Jupiter API error: dns error"), `execute_purchase` falls back to
simulation, inserts a simulated Position into the store and reports success. -/
theorem purchase_api_failure_inserts_position :
    ((execute_purchase [] "tokA" 1 0 (.failure "Jupiter API error: dns error")).positions.lookup
        "tokA").isSome = true
    ∧ (execute_purchase [] "tokA" 1 0 (.failure "Jupiter API error: dns error")).ok = true := by
  decide

/-- C1 (amended).  A successful buy inserts the real Position.  A failed buy
whose error message mentions Jupiter / API / dns inserts a *simulated* Position
and reports success; only other failures leave the store unchanged and
propagate the error.  Independently, every pool a poll returns has its id put
into the seen set, so the pool is not retried whatever the buy outcome. -/
theorem purchase_failure_fallback_spec (positions : PositionMap) (token_address : String)
    (sol_amount : ℚ) (now : Nat) (msg : String) :
    (isJupiterApiError msg = false →
      execute_purchase positions token_address sol_amount now (.failure msg)
        = ⟨positions, none, false⟩)
    ∧ (isJupiterApiError msg = true →
      execute_purchase positions token_address sol_amount now (.failure msg)
        = ⟨mapInsert positions token_address (simulatedPosition token_address sol_amount now),
           some (simulatedPosition token_address sol_amount now), true⟩)
    ∧ (∀ tokens_received,
      execute_purchase positions token_address sol_amount now (.success tokens_received)
        = ⟨mapInsert positions token_address
             (purchasedPosition token_address sol_amount now tokens_received),
           some (purchasedPosition token_address sol_amount now tokens_received), true⟩)
    ∧ (∀ (seen : Finset String) (fetched : List NewPool) (p : NewPool),
        p ∈ (scan_for_new_pools seen fetched).1 →
        p.pool_address ∈ (scan_for_new_pools seen fetched).2) := by
  refine ⟨fun h => ?_, fun h => ?_, fun tokens_received => rfl, scan_returned_mem_seen⟩
  · simp [execute_purchase, h]
  · simp [execute_purchase, h]

/-- C1 (witness): a buy failing with a non-API error ("insufficient balance")
leaves the store untouched and propagates the error. -/
theorem purchase_failure_fallback_spec_witness :
    execute_purchase [] "tokA" 1 0 (.failure "insufficient balance") = ⟨[], none, false⟩ :=
  (purchase_failure_fallback_spec [] "tokA" 1 0 "insufficient balance").1 (by decide)

/-! ## Claim C2 — failed timeout sell does not leave the position Open -/

/-- C2 (counterexample).  The claim says a timed-out position whose sell fails
with a retryable transport error remains Open in the store.  In the code the
position is removed from `active_positions` *before* `execute_auto_sell` runs,
and a sell failure propagates without restoring it: after the cycle the store
no longer contains the position, so it is never retried. -/
theorem timeout_sell_failure_removes_position :
    (monitor_position_timeouts [("tokA", ⟨"tokA", 0, 1, 1000, 1/1000, false⟩)] ["tokA"] 1800
        (fun _ _ => .failure "network timeout")).positions.lookup "tokA" = none
    ∧ (monitor_position_timeouts [("tokA", ⟨"tokA", 0, 1, 1000, 1/1000, false⟩)] ["tokA"] 1800
        (fun _ _ => .failure "network timeout")).error = some "network timeout" := by
  decide

/-- C2 (amended).  When the timeout loop reaches a scheduled position whose
sell fails (all earlier scheduled sells having succeeded), the position has
already been removed from the store and stays removed — it is not re-evaluated
next cycle — and the error aborts the rest of that cycle's timeout processing. -/
theorem timeout_sell_failure_spec (positions : PositionMap) (monitored : List String)
    (now : Nat) (sell : String → Nat → SellOutcome)
    (l₁ l₂ : List String) (t : String) (msg : String)
    (hsel : positionsToSell positions now = l₁ ++ t :: l₂)
    (hok : ∀ u ∈ l₁, ∀ n, (sell u n).isSuccess = true)
    (hfail : ∀ n, sell t n = .failure msg) :
    (monitor_position_timeouts positions monitored now sell).positions.lookup t = none
    ∧ (monitor_position_timeouts positions monitored now sell).error = some msg := by
  have ht : t ∈ mapKeys positions := by
    refine positionsToSell_mem_keys positions now t ?_
    rw [hsel]
    exact List.mem_append.2 (Or.inr (List.mem_cons_self _ _))
  unfold monitor_position_timeouts
  rw [hsel]
  exact sellLoop_fail_removed sell t msg hfail l₁ l₂ positions monitored [] hok ht

/-- C2 (witness): the single timed-out position whose sell fails with a
transport error is absent from the store afterwards. -/
theorem timeout_sell_failure_spec_witness :
    (monitor_position_timeouts [("tokB", ⟨"tokB", 0, 1, 500, 1/500, false⟩)] [] 1800
        (fun _ _ => .failure "transport error")).positions.lookup "tokB" = none
    ∧ (monitor_position_timeouts [("tokB", ⟨"tokB", 0, 1, 500, 1/500, false⟩)] [] 1800
        (fun _ _ => .failure "transport error")).error = some "transport error" :=
  timeout_sell_failure_spec [("tokB", ⟨"tokB", 0, 1, 500, 1/500, false⟩)] [] 1800
    (fun _ _ => .failure "transport error") [] [] "tokB" "transport error"
    (by decide) (by intro u hu; simp at hu) (fun n => rfl)

/-! ## Claim C3 — at most one position per asset; insert semantics -/

/-- C3 (counterexample).  The claim says inserting a position for an
`assetAddress` already present fails / is rejected.  `HashMap::insert` never
fails: a second `execute_purchase` for the same token succeeds and silently
*overwrites* the previous position (the code never checks `Exists` first; on a
successful buy `process_new_pool` even calls `execute_purchase` twice). -/
theorem insert_existing_key_overwrites :
    (execute_purchase (execute_purchase [] "tokA" 1 0 (.success 100)).positions
        "tokA" 2 5 (.success 200)).ok = true
    ∧ (execute_purchase (execute_purchase [] "tokA" 1 0 (.success 100)).positions
        "tokA" 2 5 (.success 200)).positions.lookup "tokA"
      = some (purchasedPosition "tokA" 2 5 200) :=
  ⟨rfl, rfl⟩

/-- C3 (amended).  The store never holds two positions for the same asset in
any reachable state (it is a map keyed by the token address), but an insert
for an existing key is applied — it overwrites — rather than rejected. -/
theorem position_store_unique_keys_spec :
    (∀ ps : PositionMap, ReachableStore ps → (mapKeys ps).Nodup)
    ∧ (∀ (m : PositionMap) (k : String) (v : TokenPosition),
        (mapInsert m k v).lookup k = some v) := by
  constructor
  · intro ps h
    induction h with
    | init => exact List.nodup_nil
    | purchase ps token sol now outcome h ih =>
      cases outcome with
      | success tokens_received => exact mapKeys_nodup_insert _ _ _ ih
      | failure msg =>
        by_cases hj : isJupiterApiError msg
        · simpa [execute_purchase, hj] using mapKeys_nodup_insert ps token _ ih
        · simpa [execute_purchase, hj] using ih
    | timeout ps ms now sell h ih =>
      exact sellLoop_keys_nodup sell _ ps ms [] ih
  · exact lookup_mapInsert

/-- C3 (witness): the store reached by one successful purchase has pairwise
distinct keys, and overwriting lookup on a concrete map returns the new value. -/
theorem position_store_unique_keys_spec_witness :
    (mapKeys (execute_purchase [] "tokA" 1 0 (.success 100)).positions).Nodup
    ∧ (mapInsert [("tokA", purchasedPosition "tokA" 1 0 100)] "tokA"
        (purchasedPosition "tokA" 2 5 200)).lookup "tokA"
      = some (purchasedPosition "tokA" 2 5 200) :=
  ⟨position_store_unique_keys_spec.1 _
      (ReachableStore.purchase [] "tokA" 1 0 (.success 100) ReachableStore.init),
   position_store_unique_keys_spec.2 _ "tokA" _⟩

/-! ## Claim C4 — the timeout trigger -/

/-- C4 (counterexample).  The claim says the timeout sell fires when the
elapsed hold time reaches the *configured* `max_hold_time_hours`
(default 24 h).  The code compares against a hardcoded 30-minute constant:
with the default configuration a position held exactly 1800 s — far short of
24 h = 86400 s — is scheduled and its full `estimated_tokens` amount is sold. -/
theorem timeout_fires_before_configured_max_hold :
    defaultTradingSettings.max_hold_time_hours = 24
    ∧ positionsToSell [("tokA", ⟨"tokA", 0, 1, 1000, 1/1000, false⟩)] 1800 = ["tokA"]
    ∧ (monitor_position_timeouts [("tokA", ⟨"tokA", 0, 1, 1000, 1/1000, false⟩)] [] 1800
        (fun _ _ => .success 1)).sells = [("tokA", 1000)]
    ∧ 1800 < 24 * 3600 := by
  decide

/-- C4 (amended).  A position is scheduled for the timeout sell exactly when
its elapsed hold time has reached the hardcoded `timeout_duration` of 30
minutes — the configured `max_hold_time_hours` plays no part, and no valuation
(PnL) enters the decision — and every sell order issued is for the full
`estimated_tokens` of the position (100%). -/
theorem timeout_trigger_spec (positions : PositionMap) (now : Nat) :
    (∀ t, t ∈ positionsToSell positions now ↔
      ∃ p, (t, p) ∈ positions ∧ p.purchase_time ≤ now
        ∧ timeout_duration ≤ now - p.purchase_time)
    ∧ (∀ (monitored : List String) (sell : String → Nat → SellOutcome) o,
        o ∈ (monitor_position_timeouts positions monitored now sell).sells →
        ∃ p, (o.1, p) ∈ positions ∧ o.2 = p.estimated_tokens
          ∧ o.1 ∈ positionsToSell positions now) := by
  constructor
  · intro t
    constructor
    · intro h
      rcases List.mem_map.1 h with ⟨kv, hkv, hfst⟩
      rcases List.mem_filter.1 hkv with ⟨hmem, hcond⟩
      simp only [Bool.and_eq_true, decide_eq_true_eq] at hcond
      refine ⟨kv.2, ?_, hcond.1, hcond.2⟩
      rw [← hfst, Prod.mk.eta]
      exact hmem
    · rintro ⟨p, hp, h1, h2⟩
      exact List.mem_map.2 ⟨(t, p), List.mem_filter.2 ⟨hp, by simp [h1, h2]⟩, rfl⟩
  · intro monitored sell o ho
    rcases sellLoop_sells_full sell (positionsToSell positions now) positions monitored [] o ho
      with h | h
    · simp at h
    · exact h

/-- C4 (witness): a position bought at time 0 is scheduled at time 1800. -/
theorem timeout_trigger_spec_witness :
    "tokA" ∈ positionsToSell [("tokA", ⟨"tokA", 0, 1, 1000, 1/1000, false⟩)] 1800 :=
  ((timeout_trigger_spec [("tokA", ⟨"tokA", 0, 1, 1000, 1/1000, false⟩)] 1800).1 "tokA").2
    ⟨⟨"tokA", 0, 1, 1000, 1/1000, false⟩, List.mem_singleton.2 rfl, by decide, by decide⟩

/-! ## Claim C5 — Scenario B take-profit partial sell -/

/-- C5 (counterexample).  Scenario B claims a position entered with
`baseAmountInvested = 1.0`, `unitsHeld = 100` at `pnlPercent = 55%` (with
`profitThresholdPercent = 50`, `sellPercentage = 75`) triggers a partial sell
of 75 units leaving 25.  `monitor_existing_positions` is a stub ("Take profit
monitoring disabled in simplified version"): it issues no sell order and the
position still holds all 100 units. -/
theorem scenario_b_no_partial_sell :
    (monitor_existing_positions [("tokB", ⟨"tokB", 0, 1, 100, 1/100, false⟩)]).2 = []
    ∧ ((monitor_existing_positions [("tokB", ⟨"tokB", 0, 1, 100, 1/100, false⟩)]).1.lookup
        "tokB").map TokenPosition.estimated_tokens = some 100 := by
  decide

/-- C5 (amended).  Take-profit monitoring is disabled: the per-cycle position
monitor issues no sell order and leaves every position — in particular its
`unitsHeld` — unchanged, whatever the current valuation. -/
theorem take_profit_monitoring_disabled_spec (positions : PositionMap) :
    monitor_existing_positions positions = (positions, []) :=
  rfl

/-! ## Claim C6 — alert hysteresis -/

/-- C6 (counterexample).  The claim says a position whose PnL crosses the 50%
take-profit threshold from below emits exactly one ProfitTarget alert per
genuine crossing.  Here a position at +49% is refreshed to +51% during an
evaluation cycle — a genuine crossing from below — yet `alert_history` stays
empty: the alert checker (`check_profit_alerts`) has no call site, so the
cycle emits zero ProfitTarget alerts, not one. -/
theorem genuine_crossing_emits_no_alert :
    (update_monitoring_cycle
        ⟨[("tokC", ⟨"tokC", "C", 0, 0, 149/100, 1, 49/100, 49, 0, 100, 0, 149/100, 1, 0⟩)],
         [], 0, 0, 0⟩ 1 (fun _ => some (151/10000)) 31).alert_history = []
    ∧ ((update_monitoring_cycle
        ⟨[("tokC", ⟨"tokC", "C", 0, 0, 149/100, 1, 49/100, 49, 0, 100, 0, 149/100, 1, 0⟩)],
         [], 0, 0, 0⟩ 1 (fun _ => some (151/10000)) 31).profit_data.lookup "tokC").map
        ProfitData.pnl_percentage = some 51
    ∧ ((49 : ℚ) < 50 ∧ (50 : ℚ) ≤ 51) := by
  refine ⟨rfl, ?_, by norm_num, by norm_num⟩
  norm_num [update_monitoring_cycle, portfolio_summary_step, telegram_update_step,
    price_refresh_step, update_all_prices, updateProfitData, observedValue, List.lookup]

/-- C6 (amended).  The program never emits level-crossing alerts at all:
`check_profit_alerts` — the only caller of `send_profit_alert`, which alone
appends to `alert_history` — has no call site, and the actual evaluation
cycle (`update_monitoring_cycle`: gated price refresh, telegram summary,
portfolio summary) leaves `alert_history` unchanged over any single cycle and
over any sequence of cycles. -/
theorem monitoring_emits_no_alerts_spec :
    (∀ (st : MonitorCycleState) (sol_price : ℚ) (fetch : String → Option ℚ) (now : Nat),
      (update_monitoring_cycle st sol_price fetch now).alert_history = st.alert_history)
    ∧ (∀ (st : MonitorCycleState) (cycles : List (ℚ × (String → Option ℚ) × Nat)),
      (cycles.foldl (fun s c => update_monitoring_cycle s c.1 c.2.1 c.2.2) st).alert_history
        = st.alert_history) := by
  have hp : ∀ st sol_price fetch now,
      (price_refresh_step st sol_price fetch now).alert_history = st.alert_history := by
    intro st sol_price fetch now
    unfold price_refresh_step
    split <;> rfl
  have htg : ∀ st now, (telegram_update_step st now).alert_history = st.alert_history := by
    intro st now
    unfold telegram_update_step
    split <;> rfl
  have hps : ∀ st now, (portfolio_summary_step st now).alert_history = st.alert_history := by
    intro st now
    unfold portfolio_summary_step
    split <;> rfl
  have h1 : ∀ st sol_price fetch now,
      (update_monitoring_cycle st sol_price fetch now).alert_history = st.alert_history := by
    intro st sol_price fetch now
    unfold update_monitoring_cycle
    rw [hps, htg, hp]
  refine ⟨h1, ?_⟩
  intro st cycles
  induction cycles generalizing st with
  | nil => rfl
  | cons c rest ih => rw [List.foldl_cons, ih, h1]

/-! ## Claim C7 — watermark invariants -/

theorem refreshes_highest (us : List (ℚ × ℚ × Nat)) :
    ∀ pd : ProfitData, (refreshes pd us).highest_value
      = (us.map (fun v => observedValue pd.tokens_held v.2.1 v.1)).foldl max pd.highest_value := by
  induction us with
  | nil => intro pd; rfl
  | cons u rest ih =>
    intro pd
    show (refreshes (updateProfitData u.1 u.2.1 pd u.2.2) rest).highest_value = _
    rw [ih]
    rfl

theorem refreshes_lowest (us : List (ℚ × ℚ × Nat)) :
    ∀ pd : ProfitData, (refreshes pd us).lowest_value
      = (us.map (fun v => observedValue pd.tokens_held v.2.1 v.1)).foldl min pd.lowest_value := by
  induction us with
  | nil => intro pd; rfl
  | cons u rest ih =>
    intro pd
    show (refreshes (updateProfitData u.1 u.2.1 pd u.2.2) rest).lowest_value = _
    rw [ih]
    rfl

theorem foldl_max_init (l : List ℚ) :
    ∀ a b : ℚ, l.foldl max (max a b) = max b (l.foldl max a) := by
  induction l with
  | nil => intro a b; exact max_comm a b
  | cons c t ih =>
    intro a b
    show t.foldl max (max (max a b) c) = max b (t.foldl max (max a c))
    rw [sup_right_comm]
    exact ih (max a c) b

theorem foldl_min_init (l : List ℚ) :
    ∀ a b : ℚ, l.foldl min (min a b) = min b (l.foldl min a) := by
  induction l with
  | nil => intro a b; exact min_comm a b
  | cons c t ih =>
    intro a b
    show t.foldl min (min (min a b) c) = min b (t.foldl min (min a c))
    rw [inf_right_comm]
    exact ih (min a c) b

/-- C7 (counterexample).  The claim says `highWaterValue_i = max(v0..vi)`.
For a position entered with `sol_amount = 2` whose first observed value is
`v0 = 1`, the claim gives `highWaterValue_0 = 1`, but `add_position` seeds the
watermark as `current_value_sol.max(position.sol_amount)`, yielding `2`. -/
theorem high_watermark_seeded_with_invested :
    (add_position_data ⟨"tokD", 0, 2, 1, 2, false⟩ "D" 1 1 0).highest_value = 2
    ∧ ((2 : ℚ) ≠ 1) := by
  constructor
  · have h1 : observedValue 1 1 1 = 1 := by norm_num [observedValue]
    show max (observedValue 1 1 1) 2 = 2
    rw [h1]
    exact max_eq_right (by norm_num)
  · norm_num

/-- C7 (amended).  After any number of refreshes the watermarks are the
extrema of the invested amount *and* all observed values:
`highWaterValue_i = max(baseAmountInvested, v0..vi)` and
`lowWaterValue_i = min(baseAmountInvested, v0..vi)`; the high watermark is
monotonically non-decreasing and the low watermark monotonically
non-increasing across refreshes. -/
theorem watermarks_extrema_spec (position : TokenPosition) (symbol : String)
    (cp0 sp0 : ℚ) (t0 : Nat) (us : List (ℚ × ℚ × Nat)) (u : ℚ × ℚ × Nat) :
    (refreshes (add_position_data position symbol cp0 sp0 t0) us).highest_value
      = max position.sol_amount
          ((us.map (fun v => observedValue position.estimated_tokens v.2.1 v.1)).foldl max
            (observedValue position.estimated_tokens cp0 sp0))
    ∧ (refreshes (add_position_data position symbol cp0 sp0 t0) us).lowest_value
      = min position.sol_amount
          ((us.map (fun v => observedValue position.estimated_tokens v.2.1 v.1)).foldl min
            (observedValue position.estimated_tokens cp0 sp0))
    ∧ (refreshes (add_position_data position symbol cp0 sp0 t0) us).highest_value
        ≤ (refreshes (add_position_data position symbol cp0 sp0 t0) (us ++ [u])).highest_value
    ∧ (refreshes (add_position_data position symbol cp0 sp0 t0) (us ++ [u])).lowest_value
        ≤ (refreshes (add_position_data position symbol cp0 sp0 t0) us).lowest_value := by
  have happ : refreshes (add_position_data position symbol cp0 sp0 t0) (us ++ [u])
      = updateProfitData u.1 u.2.1
          (refreshes (add_position_data position symbol cp0 sp0 t0) us) u.2.2 := by
    simp [refreshes, List.foldl_append]
  refine ⟨?_, ?_, ?_, ?_⟩
  · rw [refreshes_highest]
    exact foldl_max_init _ _ _
  · rw [refreshes_lowest]
    exact foldl_min_init _ _ _
  · rw [happ]
    exact le_max_left _ _
  · rw [happ]
    exact min_le_left _ _

/-! ## Claim C9 — no zero-denominator guard, per-position independence -/

/-- C9 (counterexample).  The claim says a position with zero
`baseAmountInvested` is skipped for the PnL rule that cycle (and logged).  The
code applies the update unconditionally: this zero-base position (entry value
0) has its refresh timestamp advanced and its current value recomputed — it is
processed, not skipped.  (The zero-denominator PnL division is performed too;
its IEEE result is a non-finite value, which this embedding does not assert.) -/
theorem zero_base_position_not_skipped :
    ((update_all_prices 2 (fun _ => some 1) 100
        [("tokZ", ⟨"tokZ", "Z", 0, 0, 7, 0, 0, 7, 0, 10, 0, 7, 0, 0⟩)]).lookup "tokZ").map
      ProfitData.last_updated = some 100
    ∧ ((update_all_prices 2 (fun _ => some 1) 100
        [("tokZ", ⟨"tokZ", "Z", 0, 0, 7, 0, 0, 7, 0, 10, 0, 7, 0, 0⟩)]).lookup "tokZ").map
      ProfitData.current_value_sol = some 5 := by
  constructor
  · rfl
  · norm_num [update_all_prices, updateProfitData, observedValue, List.lookup]

/-- C9 (amended).  `update_all_prices` has no zero-denominator guard: every
position whose price fetch succeeds — including one with zero
`baseAmountInvested` or zero `highWaterValue` — has the valuation and PnL
formulas applied as written.  Positions are processed independently (the
update distributes over the list), so an anomalous position never aborts the
cycle for the others. -/
theorem zero_base_no_guard_spec (sol_price : ℚ) (fetch : String → Option ℚ) (now : Nat)
    (l₁ l₂ : List (String × ProfitData)) (t : String) (pd : ProfitData) (price : ℚ)
    (hf : fetch t = some price) :
    update_all_prices sol_price fetch now (l₁ ++ (t, pd) :: l₂)
      = update_all_prices sol_price fetch now l₁
        ++ (t, updateProfitData sol_price price pd now) :: update_all_prices sol_price fetch now l₂
    ∧ (updateProfitData sol_price price pd now).last_updated = now
    ∧ (updateProfitData sol_price price pd now).current_value_sol
        = observedValue pd.tokens_held price sol_price := by
  refine ⟨?_, rfl, rfl⟩
  simp [update_all_prices, hf]

/-- C9 (witness): the zero-base position's refresh timestamp is advanced. -/
theorem zero_base_no_guard_spec_witness :
    (updateProfitData 2 1 ⟨"tokZ", "Z", 0, 0, 7, 0, 0, 7, 0, 10, 0, 7, 0, 0⟩ 100).last_updated
      = 100 :=
  (zero_base_no_guard_spec 2 (fun _ => some 1) 100 [] [] "tokZ"
    ⟨"tokZ", "Z", 0, 0, 7, 0, 0, 7, 0, 10, 0, 7, 0, 0⟩ 1 rfl).2.1

/-! ## Claim C10 — total SOL price lookup with fallbacks -/

/-- C10 (confirmed).  `get_sol_price` is total: every input yields `Ok`.  When
neither upstream API yields a parsed price, the result is the cached price if
it is positive, else the hardcoded `150.0`.  Consequently a refresh cycle
(`update_all_prices`) always proceeds with *some* base-currency price — live,
cached, or fabricated — never reporting staleness. -/
theorem sol_price_total_fallback_spec (st : SolPriceCache) :
    (∀ cg jp, ∃ p st', get_sol_price st cg jp = (.ok p, st'))
    ∧ (∀ cg jp, (∀ q, cg ≠ .price q) → (∀ q, jp ≠ .price q) →
        get_sol_price st cg jp
          = if 0 < st.sol_price_usd then ((.ok st.sol_price_usd : Except String ℚ), st)
            else ((.ok 150 : Except String ℚ), st))
    ∧ (∀ cg jp (fetch : String → Option ℚ) (now : Nat) pds,
        ∃ p, (refresh_cycle st cg jp fetch now pds).1 = update_all_prices p fetch now pds) := by
  have hfb : ∃ p, solPriceFallback st = (.ok p, st) := by
    unfold solPriceFallback
    by_cases h : 0 < st.sol_price_usd
    · exact ⟨st.sol_price_usd, by simp [h]⟩
    · exact ⟨150, by simp [h]⟩
  have htotal : ∀ cg jp, ∃ p st', get_sol_price st cg jp = (.ok p, st') := by
    intro cg jp
    unfold get_sol_price
    by_cases h : st.cache_fresh ∧ 0 < st.sol_price_usd
    · exact ⟨st.sol_price_usd, st, by simp [h]⟩
    · rcases hfb with ⟨p0, hp0⟩
      cases cg with
      | price p => exact ⟨p, ⟨p, true⟩, by simp [h]⟩
      | badResponse => exact ⟨p0, st, by simp [h, hp0]⟩
      | sendError =>
        cases jp with
        | price p => exact ⟨p, ⟨p, true⟩, by simp [h]⟩
        | badResponse => exact ⟨p0, st, by simp [h, hp0]⟩
        | sendError => exact ⟨p0, st, by simp [h, hp0]⟩
  refine ⟨htotal, ?_, ?_⟩
  · intro cg jp hcg hjp
    unfold get_sol_price
    have hfb' : solPriceFallback st
        = if 0 < st.sol_price_usd then ((.ok st.sol_price_usd : Except String ℚ), st)
          else ((.ok 150 : Except String ℚ), st) := by
      unfold solPriceFallback
      by_cases h : 0 < st.sol_price_usd
      · simp [h]
      · simp [h]
    by_cases h : st.cache_fresh ∧ 0 < st.sol_price_usd
    · simp [h, h.2]
    · cases cg with
      | price p => exact absurd rfl (hcg p)
      | badResponse => simp [h, hfb']
      | sendError =>
        cases jp with
        | price p => exact absurd rfl (hjp p)
        | badResponse => simp [h, hfb']
        | sendError => simp [h, hfb']
  · intro cg jp fetch now pds
    rcases htotal cg jp with ⟨p, st', hp⟩
    exact ⟨p, by simp [refresh_cycle, hp]⟩

/-- C10 (witness): at the initial state (no cached price, cache stale) with
both upstreams failing, the price lookup returns `Ok 150.0`. -/
theorem sol_price_total_fallback_spec_witness :
    get_sol_price ⟨0, false⟩ .sendError .sendError = (.ok 150, ⟨0, false⟩) := by
  have h := (sol_price_total_fallback_spec ⟨0, false⟩).2.1 .sendError .sendError
    (fun q hq => by cases hq) (fun q hq => by cases hq)
  simpa [lt_irrefl] using h

/-! ## Claim C8 — discovery deduplication across polls -/

/-- C8 (confirmed).  A pool returned by poll `i` is never returned again by
any later poll `j`: its id entered the seen set when poll `i` filtered and
then inserted it, the seen set only ever grows (it is never pruned), and every
later poll filters fetched pools against it before returning. -/
theorem discovery_dedup_spec (fetches : List (List NewPool)) (seen : Finset String)
    (i j : Nat) (hij : i < j) (bi bj : List NewPool)
    (hbi : (runPolls seen fetches).1.get? i = some bi)
    (hbj : (runPolls seen fetches).1.get? j = some bj)
    (p : NewPool) (hp : p ∈ bi) :
    (∀ q ∈ bj, q.pool_address ≠ p.pool_address)
    ∧ p.pool_address ∈ (runPolls seen fetches).2
    ∧ seen ⊆ (runPolls seen fetches).2 := by
  refine ⟨fun q hq => ?_, runPolls_batch_mem_final fetches seen i bi hbi p hp,
    runPolls_seen_mono fetches seen⟩
  exact fun h =>
    runPolls_batch_not_reissued fetches seen i j hij bi bj hbi hbj p q hp hq h.symm

/-- C8 (witness): two successive polls both fetching the same pool — the
second poll's returned batch is empty and the pool id sits in the seen set. -/
theorem discovery_dedup_spec_witness :
    (⟨"tokA", "poolA", 5⟩ : NewPool).pool_address
      ∈ (runPolls ∅ [[⟨"tokA", "poolA", 5⟩], [⟨"tokA", "poolA", 5⟩]]).2 :=
  (discovery_dedup_spec [[⟨"tokA", "poolA", 5⟩], [⟨"tokA", "poolA", 5⟩]] ∅ 0 1
    (by decide) [⟨"tokA", "poolA", 5⟩] [] rfl rfl ⟨"tokA", "poolA", 5⟩
    (List.mem_singleton.2 rfl)).2.1

end Sniper
